import Mathlib

/-!
Shallow embedding of the `if-addrs` crate (interface enumeration and change
notification) and proofs about it.

The embedding mirrors `src/lib.rs` (address model, the POSIX and Windows
enumeration loops, the `IfChangeNotifier::wait` loop), `src/posix.rs`,
`src/posix_not_mac.rs` and `src/windows.rs`.  Raw OS structures reached
through FFI pointers (`sockaddr` decoding, `ifaddrs` nodes, adapter lists)
are modelled as already-decoded records: `sockaddr::to_ipaddr` results
become `Option IpAddr` fields of the entry records.  Machine integers are
`Nat` with explicit bounds where they matter.
-/

/-! ## Bit-level helpers: population count and byte/word assembly -/

/-- Fuel-driven population count worker; structural recursion so that the
kernel can evaluate it on concrete numerals. -/
def popCountAux : Nat → Nat → Nat
  | 0, _ => 0
  | fuel + 1, n => if n = 0 then 0 else n % 2 + popCountAux fuel (n / 2)

/-- Population count (number of set bits) of a natural number; `n` itself is
always enough fuel since the argument at least halves at each step. -/
def popCount (n : Nat) : Nat := popCountAux n n

/-- Little-endian assembly of `w`-bit lanes into a natural number: the head
lane is the least significant (this is `uN::from_le_bytes` with `w = 8`). -/
def lanesToNatLe (w : Nat) : List Nat → Nat
  | [] => 0
  | b :: rest => b + 2 ^ w * lanesToNatLe w rest

/-- Big-endian assembly of `w`-bit lanes: the head lane is the most
significant (the address's natural byte order). -/
def lanesToNatBe (w : Nat) : List Nat → Nat
  | [] => 0
  | b :: rest => b * 2 ^ (w * rest.length) + lanesToNatBe w rest

/-! ## Address model (`src/lib.rs` lines 39-223) -/

/-- An IPv4 address as its four octets, mirroring `std::net::Ipv4Addr`.
Octet values are in `0..=255` wherever they come from real addresses. -/
structure Ipv4Addr where
  o0 : Nat
  o1 : Nat
  o2 : Nat
  o3 : Nat
deriving DecidableEq

/-- Octets of an IPv4 address in natural (big-endian) order, mirroring
`Ipv4Addr::octets`. -/
def Ipv4Addr.octets (a : Ipv4Addr) : List Nat := [a.o0, a.o1, a.o2, a.o3]

/-- Well-formedness: every octet fits in a byte. -/
def Ipv4Addr.Valid (a : Ipv4Addr) : Prop :=
  a.o0 < 256 ∧ a.o1 < 256 ∧ a.o2 < 256 ∧ a.o3 < 256

instance (a : Ipv4Addr) : Decidable a.Valid :=
  inferInstanceAs (Decidable (_ ∧ _ ∧ _ ∧ _))

/-- An IPv6 address as its eight 16-bit segments, mirroring
`std::net::Ipv6Addr::new(s0, .., s7)`. -/
structure Ipv6Addr where
  s0 : Nat
  s1 : Nat
  s2 : Nat
  s3 : Nat
  s4 : Nat
  s5 : Nat
  s6 : Nat
  s7 : Nat
deriving DecidableEq

/-- Segments of an IPv6 address, mirroring `Ipv6Addr::segments`. -/
def Ipv6Addr.segments (a : Ipv6Addr) : List Nat :=
  [a.s0, a.s1, a.s2, a.s3, a.s4, a.s5, a.s6, a.s7]

/-- Octets of an IPv6 address in natural (big-endian) order, mirroring
`Ipv6Addr::octets`: each segment contributes its high byte then its low
byte. -/
def Ipv6Addr.octets (a : Ipv6Addr) : List Nat :=
  [a.s0 / 256, a.s0 % 256, a.s1 / 256, a.s1 % 256,
   a.s2 / 256, a.s2 % 256, a.s3 / 256, a.s3 % 256,
   a.s4 / 256, a.s4 % 256, a.s5 / 256, a.s5 % 256,
   a.s6 / 256, a.s6 % 256, a.s7 / 256, a.s7 % 256]

/-- Well-formedness: every segment fits in 16 bits. -/
def Ipv6Addr.Valid (a : Ipv6Addr) : Prop :=
  a.s0 < 65536 ∧ a.s1 < 65536 ∧ a.s2 < 65536 ∧ a.s3 < 65536 ∧
    a.s4 < 65536 ∧ a.s5 < 65536 ∧ a.s6 < 65536 ∧ a.s7 < 65536

instance (a : Ipv6Addr) : Decidable a.Valid :=
  inferInstanceAs (Decidable (_ ∧ _ ∧ _ ∧ _ ∧ _ ∧ _ ∧ _ ∧ _))

/-- An IP address of either family, mirroring `std::net::IpAddr`; this is the
decoded result of `sockaddr::to_ipaddr`. -/
inductive IpAddr where
  | v4 (a : Ipv4Addr)
  | v6 (a : Ipv6Addr)
deriving DecidableEq

/-- Well-formedness of a decoded address of either family. -/
def IpAddr.Valid : IpAddr → Prop
  | .v4 a => a.Valid
  | .v6 a => a.Valid

instance : (ip : IpAddr) → Decidable ip.Valid
  | .v4 a => inferInstanceAs (Decidable a.Valid)
  | .v6 a => inferInstanceAs (Decidable a.Valid)

/-- Well-formedness of an optional decoded address. -/
def optionIpValid : Option IpAddr → Prop
  | some ip => ip.Valid
  | none => True

instance : (o : Option IpAddr) → Decidable (optionIpValid o)
  | some ip => inferInstanceAs (Decidable ip.Valid)
  | none => inferInstanceAs (Decidable True)

/-- Details about the IPv4 address of an interface (`Ifv4Addr` in the
source). -/
structure Ifv4Addr where
  ip : Ipv4Addr
  netmask : Ipv4Addr
  prefixlen : Nat
  broadcast : Option Ipv4Addr
deriving DecidableEq

/-- Details about the IPv6 address of an interface (`Ifv6Addr` in the
source). -/
structure Ifv6Addr where
  ip : Ipv6Addr
  netmask : Ipv6Addr
  prefixlen : Nat
  broadcast : Option Ipv6Addr
deriving DecidableEq

/-- Link-local test of `Ifv6Addr::is_link_local` (`src/lib.rs` 217-223): the
first two octets must be exactly `0xfe` and `0x80`. -/
def Ifv6Addr.isLinkLocal (a : Ifv6Addr) : Bool :=
  (a.ip.octets.getD 0 0 == 0xfe) && (a.ip.octets.getD 1 0 == 0x80)

/-- The top 10 bits of an IPv6 address viewed as a 128-bit big-endian
number.  Written from the spec sentence "top 10 bits equal `1111111010`" to
compare against `Ifv6Addr.isLinkLocal`. -/
def Ipv6Addr.topTenBits (a : Ipv6Addr) : Nat :=
  lanesToNatBe 8 a.octets / 2 ^ 118

/-- Address details of an interface (`IfAddr` in the source). -/
inductive IfAddr where
  | v4 (a : Ifv4Addr)
  | v6 (a : Ifv6Addr)
deriving DecidableEq

/-- CIDR prefix field of either address family. -/
def IfAddr.prefixlenOf : IfAddr → Nat
  | .v4 a => a.prefixlen
  | .v6 a => a.prefixlen

/-- Population count of the netmask field, taken over the address's natural
(big-endian) byte order, as the spec's invariant words it. -/
def IfAddr.netmaskPopCountBe : IfAddr → Nat
  | .v4 a => popCount (lanesToNatBe 8 a.netmask.octets)
  | .v6 a => popCount (lanesToNatBe 8 a.netmask.octets)

/-- Whether the broadcast field is populated. -/
def IfAddr.hasBroadcast : IfAddr → Bool
  | .v4 a => a.broadcast.isSome
  | .v6 a => a.broadcast.isSome

/-- Operational state of an interface (`IfOperStatus`, RFC 2863). -/
inductive IfOperStatus where
  | up
  | down
  | testing
  | unknown
  | dormant
  | notPresent
  | lowerLayerDown
deriving DecidableEq

/-- Numeric decoding of `IfOperStatus` (`impl From<i32>`, `src/lib.rs`
69-82): out-of-range raw values map to `unknown`. -/
def IfOperStatus.fromInt (value : Int) : IfOperStatus :=
  if value = 1 then .up
  else if value = 2 then .down
  else if value = 3 then .testing
  else if value = 4 then .unknown
  else if value = 5 then .dormant
  else if value = 6 then .notPresent
  else if value = 7 then .lowerLayerDown
  else .unknown

/-- Details about one interface (the non-Windows `Interface` struct; the
Windows variant additionally carries `adapter_name` and is modelled
separately as `WinInterface`). -/
structure Interface where
  name : String
  addr : IfAddr
  index : Option Nat
  operStatus : IfOperStatus
deriving DecidableEq

/-! ## POSIX enumeration (`getifaddrs_posix::get_if_addrs`, `src/lib.rs`
244-336, over `src/posix.rs`) -/

/-- Decoded view of one `libc::ifaddrs` node as the enumeration loop reads
it.  The raw pointer decodings are pre-applied: `addr` and `netmask` are the
results of `sockaddr::to_ipaddr` on `ifa_addr` and `ifa_netmask`,
`broadcastAddr` is the result of `posix::do_broadcast` (the decoded
`ifa_broadaddr`/`ifa_dstaddr` union member), `nameIndex` is the result of
`libc::if_nametoindex(ifa_name)`. -/
structure PosixIfaddrsEntry where
  name : String
  addr : Option IpAddr
  netmask : Option IpAddr
  broadcastAddr : Option IpAddr
  flags : Nat
  nameIndex : Nat
deriving DecidableEq

/-- Well-formedness of a decoded entry: every decoded address is in range. -/
def PosixIfaddrsEntry.Valid (e : PosixIfaddrsEntry) : Prop :=
  optionIpValid e.addr ∧ optionIpValid e.netmask ∧ optionIpValid e.broadcastAddr

instance (e : PosixIfaddrsEntry) : Decidable e.Valid :=
  inferInstanceAs (Decidable (_ ∧ _ ∧ _))

/-- The `IFF_RUNNING` bit from `net/if.h` (`src/lib.rs` 240). -/
def POSIX_IFF_RUNNING : Nat := 0x40

/-- Address-construction part of the POSIX loop body (`src/lib.rs` 251-303).
Returns `none` when the entry is skipped (`ifa_addr` decodes to no address).
The source selects a little- or big-endian `count_ones` by target
endianness; both give the same popcount, and the little-endian branch is
embedded. -/
def posixIfAddrOf (e : PosixIfaddrsEntry) : Option IfAddr :=
  match e.addr with
  | none => none
  | some (.v4 ipv4) =>
    let netmask : Ipv4Addr :=
      match e.netmask with
      | some (.v4 nm) => nm
      | _ => ⟨0, 0, 0, 0⟩
    let broadcast : Option Ipv4Addr :=
      if e.flags &&& 2 ≠ 0 then
        match e.broadcastAddr with
        | some (.v4 b) => some b
        | _ => none
      else none
    let prefixlen : Nat := popCount (lanesToNatLe 8 netmask.octets)
    some (.v4 ⟨ipv4, netmask, prefixlen, broadcast⟩)
  | some (.v6 ipv6) =>
    let netmask : Ipv6Addr :=
      match e.netmask with
      | some (.v6 nm) => nm
      | _ => ⟨0, 0, 0, 0, 0, 0, 0, 0⟩
    let broadcast : Option Ipv6Addr :=
      if e.flags &&& 2 ≠ 0 then
        match e.broadcastAddr with
        | some (.v6 b) => some b
        | _ => none
      else none
    let prefixlen : Nat := popCount (lanesToNatLe 8 netmask.octets)
    some (.v6 ⟨ipv6, netmask, prefixlen, broadcast⟩)

/-- Full POSIX loop body (`src/lib.rs` 250-333): skipped entries yield
`none`, otherwise the `Interface` that is pushed. -/
def posixInterfaceOf (e : PosixIfaddrsEntry) : Option Interface :=
  (posixIfAddrOf e).map fun addr =>
    { name := e.name
      addr := addr
      index := if e.nameIndex = 0 then none else some e.nameIndex
      operStatus :=
        if e.flags &&& POSIX_IFF_RUNNING ≠ 0 then .up else .unknown }

/-- The POSIX `get_if_addrs` over an already-walked `ifaddrs` list. -/
def posixGetIfAddrs (entries : List PosixIfaddrsEntry) : List Interface :=
  entries.filterMap posixInterfaceOf

/-! ## Windows enumeration (`getifaddrs_windows::get_if_addrs`,
`src/lib.rs` 345-487, over `src/windows.rs`) -/

/-- Decoded view of one `IP_ADAPTER_PREFIX_XP` prefix-table row: `address`
is `sockaddr::to_ipaddr(prefix.Address.lpSockaddr)` and `prefixLength` is
`prefix.PrefixLength`. -/
structure WinPrefixEntry where
  address : Option IpAddr
  prefixLength : Nat
deriving DecidableEq

/-- Decoded view of one `IP_ADAPTER_UNICAST_ADDRESS_LH` row. -/
structure WinUnicastAddress where
  address : Option IpAddr
  onLinkPrefixLength : Nat
  dadState : Nat
deriving DecidableEq

/-- `IpDadStatePreferred` in the WinSock headers. -/
def IpDadStatePreferred : Nat := 4

/-- Decoded view of one `IP_ADAPTER_ADDRESSES_LH` adapter.  `ifIndex` and
`ipv6IfIndex` are the raw index fields read by `ipv4_index`/`ipv6_index`
(`src/windows.rs` 47-63); `operStatusRaw` is the adapter's numeric
operational status, surfaced by the `oper_status` accessor which is not in
the given sources and is modelled from the spec as the direct numeric
`OperStatus` mapping. -/
structure WinAdapter where
  friendlyName : String
  adapterName : String
  unicastAddresses : List WinUnicastAddress
  prefixes : List WinPrefixEntry
  ifIndex : Nat
  ipv6IfIndex : Nat
  operStatusRaw : Int
deriving DecidableEq

/-- `IpAdapterAddresses::ipv4_index` (`src/windows.rs` 47-54). -/
def WinAdapter.ipv4Index (ad : WinAdapter) : Option Nat :=
  if ad.ifIndex = 0 then none else some ad.ifIndex

/-- `IpAdapterAddresses::ipv6_index` (`src/windows.rs` 56-63). -/
def WinAdapter.ipv6Index (ad : WinAdapter) : Option Nat :=
  if ad.ipv6IfIndex = 0 then none else some ad.ipv6IfIndex

/-- Inner bit loop of the prefix match (`for m in 0..8`, `src/lib.rs`
384-394, and `for m in 0..16`, lines 439-449, with lane width `w`): walks
bit positions `m` within lane `n`, accumulating matched bits into `acc`;
stops at the prefix length; returns `none` on the first mismatched bit
(the `continue 'prefixloop` path). -/
def winLaneScan (w x y n len : Nat) : Nat → Nat → Nat → Option Nat
  | _, acc, 0 => some acc
  | m, acc, fuel + 1 =>
    if n * w + m ≥ len then some acc
    else
      let bit := 2 ^ (w - 1 - m)
      if x &&& bit = y &&& bit then winLaneScan w x y n len (m + 1) (acc ||| bit) fuel
      else none

/-- Outer lane loop of the prefix match (`netmask.iter_mut().enumerate()
.take((len + w - 1) / w)`, `src/lib.rs` 376-395 and 431-450): builds the
netmask lane by lane, leaving lanes beyond the `take` bound at zero;
propagates a bit mismatch as `none`. -/
def winMaskLanes (w len : Nat) : Nat → List Nat → List Nat → Option (List Nat)
  | _, [], _ => some []
  | _, _ :: _, [] => some []
  | n, x :: xs, y :: ys =>
    if n < (len + (w - 1)) / w then
      (winLaneScan w x y n len 0 0 w).bind fun lane =>
        (winMaskLanes w len (n + 1) xs ys).map fun rest => lane :: rest
    else
      (winMaskLanes w len (n + 1) xs ys).map fun rest => 0 :: rest

/-- The `'prefixloopv4` search (`src/lib.rs` 371-413): scan the adapter's
prefix table in order; the first IPv4 row whose address bits match the
candidate up to its prefix length yields the netmask and the synthesized
broadcast `ip | !netmask`; other rows are skipped.  Returns the final
`(item_netmask, item_broadcast)` pair. -/
def winScanPrefixesV4 (ipv4 : Ipv4Addr) : List WinPrefixEntry → Ipv4Addr × Option Ipv4Addr
  | [] => (⟨0, 0, 0, 0⟩, none)
  | p :: rest =>
    match p.address with
    | some (.v4 a) =>
      match winMaskLanes 8 p.prefixLength 0 ipv4.octets a.octets with
      | some ms =>
        let netmask : Ipv4Addr := ⟨ms.getD 0 0, ms.getD 1 0, ms.getD 2 0, ms.getD 3 0⟩
        let broadcast : Ipv4Addr :=
          ⟨ipv4.o0 ||| (255 ^^^ netmask.o0), ipv4.o1 ||| (255 ^^^ netmask.o1),
           ipv4.o2 ||| (255 ^^^ netmask.o2), ipv4.o3 ||| (255 ^^^ netmask.o3)⟩
        (netmask, some broadcast)
      | none => winScanPrefixesV4 ipv4 rest
    | _ => winScanPrefixesV4 ipv4 rest

/-- The `'prefixloopv6` search (`src/lib.rs` 424-459): same scan over
16-bit segments; no broadcast is synthesized.  Returns the final
`item_netmask`. -/
def winScanPrefixesV6 (ipv6 : Ipv6Addr) : List WinPrefixEntry → Ipv6Addr
  | [] => ⟨0, 0, 0, 0, 0, 0, 0, 0⟩
  | p :: rest =>
    match p.address with
    | some (.v6 a) =>
      match winMaskLanes 16 p.prefixLength 0 ipv6.segments a.segments with
      | some ms =>
        ⟨ms.getD 0 0, ms.getD 1 0, ms.getD 2 0, ms.getD 3 0,
         ms.getD 4 0, ms.getD 5 0, ms.getD 6 0, ms.getD 7 0⟩
      | none => winScanPrefixesV6 ipv6 rest
    | _ => winScanPrefixesV6 ipv6 rest

/-- Per-unicast-address body of the Windows loop (`src/lib.rs` 360-467):
skip non-preferred DAD states and undecodable addresses; otherwise build
the `IfAddr` with `prefixlen` taken from `OnLinkPrefixLength` and the
netmask/broadcast from the prefix-table scan. -/
def winIfAddrOf (prefixes : List WinPrefixEntry) (u : WinUnicastAddress) : Option IfAddr :=
  if u.dadState ≠ IpDadStatePreferred then none
  else
    match u.address with
    | none => none
    | some (.v4 ipv4) =>
      let scanned := winScanPrefixesV4 ipv4 prefixes
      some (.v4 ⟨ipv4, scanned.1, u.onLinkPrefixLength, scanned.2⟩)
    | some (.v6 ipv6) =>
      some (.v6 ⟨ipv6, winScanPrefixesV6 ipv6 prefixes, u.onLinkPrefixLength, none⟩)

/-- The Windows `Interface` struct, which additionally carries
`adapter_name`. -/
structure WinInterface where
  name : String
  addr : IfAddr
  index : Option Nat
  operStatus : IfOperStatus
  adapterName : String
deriving DecidableEq

/-- The Windows `get_if_addrs` over an already-walked adapter list
(`src/lib.rs` 355-486): one produced entry per kept unicast address of each
adapter, in order. -/
def winGetIfAddrs (adapters : List WinAdapter) : List WinInterface :=
  (adapters.map fun ad =>
    ad.unicastAddresses.filterMap fun u =>
      (winIfAddrOf ad.prefixes u).map fun addr =>
        { name := ad.friendlyName
          addr := addr
          index := match addr with
            | .v4 _ => ad.ipv4Index
            | .v6 _ => ad.ipv6Index
          operStatus := IfOperStatus.fromInt ad.operStatusRaw
          adapterName := ad.adapterName }).flatten

/-! ## Snapshot diffing and the change-notification engine
(`if_change_notifier`, `src/lib.rs` 521-595) -/

/-- A reported interface change (`IfChangeType`). -/
inductive IfChangeType where
  | added (i : Interface)
  | removed (i : Interface)
deriving DecidableEq

/-- A Rust `HashSet<Interface>` is modelled as its iteration sequence: a
list without duplicates (hash-set iteration order is arbitrary, and none of
the properties proved below depend on it).  `difference` enumerates the
elements of the first set that the second lacks, by full value equality. -/
def hashSetDiff (a b : List Interface) : List Interface :=
  a.filter fun x => decide (x ∉ b)

/-- The diff computed inside `IfChangeNotifier::wait` (`src/lib.rs`
576-586): additions (`new_ifs.difference(&self.last_ifs)`) first, then
removals (`self.last_ifs.difference(&new_ifs)`). -/
def snapshotDiff (lastIfs newIfs : List Interface) : List IfChangeType :=
  ((hashSetDiff newIfs lastIfs).map .added) ++
    ((hashSetDiff lastIfs newIfs).map .removed)

/-- Error kinds the embedded code distinguishes: Rust's
`io::ErrorKind::WouldBlock` versus any other OS error, carried with its
code. -/
inductive IOErrorKind where
  | wouldBlock
  | osError (code : Nat)
deriving DecidableEq

/-- Rust's errno-to-`ErrorKind` mapping restricted to what the embedding
needs: `EAGAIN` (11) becomes `WouldBlock`; anything else stays an OS
error. -/
def errnoKind (errno : Nat) : IOErrorKind :=
  if errno = 11 then .wouldBlock else .osError errno

/-- One iteration's worth of environment behaviour for the `wait` loop:
`elapsed` is the value of `start.elapsed()` when the iteration calls the
inner wait (nanoseconds, nondecreasing across a run); `osWait` is the
outcome of `self.inner.wait(..)` as a function of the budget it is handed;
`probe` is the outcome of the `get_if_addrs` re-probe, its snapshot already
collected into a hash set (duplicate-free list). -/
structure WaitEvent where
  elapsed : Nat
  osWait : Option Nat → Except IOErrorKind Unit
  probe : Except IOErrorKind (List Interface)

/-- Result of running the `wait` loop against a finite trace of events.
`blocked` means the trace ended with the loop still waiting (every
processed wake was spurious); it carries the snapshot held at that point. -/
inductive WaitRun where
  | ok (changes : List IfChangeType) (lastIfs : List Interface)
  | err (e : IOErrorKind) (lastIfs : List Interface)
  | blocked (lastIfs : List Interface)
deriving DecidableEq

/-- The `IfChangeNotifier::wait` loop (`src/lib.rs` 568-593) over an event
trace.  Each iteration hands the inner wait the remaining budget
`timeout.map (fun t =>  t.saturating_sub(start.elapsed()))` (saturating
subtraction is `Nat` subtraction); a failing inner wait or probe returns
that error via `?` with `last_ifs` untouched; an empty diff (spurious wake)
replaces `last_ifs` and loops; a non-empty diff replaces `last_ifs` and
returns the changes. -/
def engineWait (timeout : Option Nat) (lastIfs : List Interface) :
    List WaitEvent → WaitRun
  | [] => .blocked lastIfs
  | ev :: rest =>
    match ev.osWait (timeout.map fun t => t - ev.elapsed) with
    | .error e => .err e lastIfs
    | .ok _ =>
      match ev.probe with
      | .error e => .err e lastIfs
      | .ok newIfs =>
        let changes := snapshotDiff lastIfs newIfs
        if changes.isEmpty then engineWait timeout newIfs rest
        else .ok changes newIfs

/-! ## Platform wait primitives (`src/posix_not_mac.rs` 66-106 and
`src/windows.rs` 264-271) -/

/-- A `libc::timeval`: seconds and microseconds. -/
structure Timeval where
  sec : Nat
  usec : Nat
deriving DecidableEq

/-- A `std::time::Duration`, as total nanoseconds. -/
structure Duration where
  nanos : Nat
deriving DecidableEq

/-- `Duration::as_secs`. -/
def Duration.asSecs (d : Duration) : Nat := d.nanos / 1000000000

/-- `Duration::subsec_micros` (truncating). -/
def Duration.subsecMicros (d : Duration) : Nat := d.nanos % 1000000000 / 1000

/-- Timeout-to-`timeval` conversion in `PosixIfChangeNotifier::wait`
(`src/posix_not_mac.rs` 72-91): `None` becomes the all-zero `timeval`
(wait forever); a duration whose seconds and microseconds are both zero is
bumped to one microsecond. -/
def timevalOfTimeout : Option Duration → Timeval
  | some t =>
    let tv : Timeval := ⟨t.asSecs, t.subsecMicros⟩
    if tv.sec = 0 ∧ tv.usec = 0 then ⟨tv.sec, 1⟩ else tv
  | none => ⟨0, 0⟩

/-- Outcome of a blocking receive. -/
inductive RecvOutcome where
  | received
  | timedOut
  | blocksForever
deriving DecidableEq

/-- Environment model of `recv` under `SO_RCVTIMEO` (the OS convention the
source comments on): a pending or arriving datagram is received; with no
datagram, an all-zero `timeval` waits forever and a non-zero one fails
with `EAGAIN` when it expires.  `pending` abstracts "a datagram arrives
during the wait". -/
def recvWithRcvtimeo (tv : Timeval) (pending : Bool) : RecvOutcome :=
  if pending then .received
  else if tv.sec = 0 ∧ tv.usec = 0 then .blocksForever
  else .timedOut

/-- Observable behaviour of one inner `wait` call: it either returns a
result or never returns. -/
inductive WaitBehavior where
  | returns (r : Except IOErrorKind Unit)
  | blocksForever

/-- `PosixIfChangeNotifier::wait` (`src/posix_not_mac.rs` 66-106): convert
the timeout, set `SO_RCVTIMEO`, `recv`; a negative `recv` result surfaces
`io::Error::last_os_error()`, which for an expired receive timeout is
`EAGAIN` and therefore kind `WouldBlock`. -/
def posixNotifierWait (timeout : Option Duration) (pending : Bool) : WaitBehavior :=
  match recvWithRcvtimeo (timevalOfTimeout timeout) pending with
  | .received => .returns (.ok ())
  | .timedOut => .returns (.error (errnoKind 11))
  | .blocksForever => .blocksForever

/-- `WindowsIfChangeNotifier::wait` (`src/windows.rs` 264-271):
`recv_timeout` on the callback mailbox for a finite timeout, plain `recv`
otherwise; any receive failure is mapped to a `WouldBlock` error by the
source's `map_err`. -/
def windowsNotifierWait (timeout : Option Duration) (pending : Bool) : WaitBehavior :=
  match timeout with
  | some _ => if pending then .returns (.ok ()) else .returns (.error .wouldBlock)
  | none => if pending then .returns (.ok ()) else .blocksForever

/-! ## Link-local classification (`src/lib.rs` 105-194) -/

/-- Rust std `Ipv4Addr::is_link_local` (the `169.254.0.0/16` block), which
`Ifv4Addr::is_link_local` delegates to. -/
def Ipv4Addr.isLinkLocal (a : Ipv4Addr) : Bool := a.o0 == 169 && a.o1 == 254

/-- `Ifv4Addr::is_link_local` (`src/lib.rs` 191-193). -/
def Ifv4Addr.isLinkLocal (a : Ifv4Addr) : Bool := a.ip.isLinkLocal

/-- `IfAddr::is_link_local` (`src/lib.rs` 152-157). -/
def IfAddr.isLinkLocal : IfAddr → Bool
  | .v4 a => a.isLinkLocal
  | .v6 a => a.isLinkLocal

/-- `Interface::is_link_local` (`src/lib.rs` 114-116). -/
def Interface.isLinkLocal (i : Interface) : Bool := i.addr.isLinkLocal

/-! ## Concrete inputs used by witnesses and counterexamples -/

/-- A sample produced interface value. -/
def exIfaceA : Interface :=
  ⟨"ifA", .v4 ⟨⟨10, 0, 0, 1⟩, ⟨255, 0, 0, 0⟩, 8, none⟩, some 1, .up⟩

/-- A second, distinct sample interface value. -/
def exIfaceB : Interface :=
  ⟨"ifB", .v4 ⟨⟨192, 168, 0, 2⟩, ⟨255, 255, 255, 0⟩, 24, none⟩, some 2, .up⟩

/-- Windows adapter with a preferred `/24` unicast address but an empty
prefix table: the produced entry keeps `prefixlen = 24` while the netmask
stays all-zero. -/
def cexC1Adapter : WinAdapter :=
  ⟨"Ethernet", "guid-c1", [⟨some (.v4 ⟨192, 168, 1, 42⟩), 24, 4⟩], [], 7, 0, 1⟩

/-- POSIX entry holding an IPv6 address with the broadcast flag bit set and
an IPv6 broadcast value reported by the OS. -/
def cexC2Entry : PosixIfaddrsEntry :=
  ⟨"tun0", some (.v6 ⟨0xfe80, 0, 0, 0, 0, 0, 0, 2⟩), none,
   some (.v6 ⟨0xfe80, 0, 0, 0, 0, 0, 0, 0xffff⟩), 2, 3⟩

/-- Windows adapter for the spec's prefix-reconstruction scenario: prefix
table entry `192.168.1.0/24`, candidate unicast address `192.168.1.42`
with on-link prefix length 24. -/
def c6Adapter : WinAdapter :=
  ⟨"Ethernet", "guid-c6", [⟨some (.v4 ⟨192, 168, 1, 42⟩), 24, 4⟩],
   [⟨some (.v4 ⟨192, 168, 1, 0⟩), 24⟩], 7, 0, 1⟩

/-- POSIX entry whose netmask decodes to the other family than its
address. -/
def exC10Entry : PosixIfaddrsEntry :=
  ⟨"eth0", some (.v4 ⟨10, 0, 0, 1⟩), some (.v6 ⟨1, 2, 3, 4, 5, 6, 7, 8⟩),
   none, 0, 1⟩

/-- POSIX loopback-like entry with a direct IPv4 netmask. -/
def exC1Entry : PosixIfaddrsEntry :=
  ⟨"lo", some (.v4 ⟨127, 0, 0, 1⟩), some (.v4 ⟨255, 0, 0, 0⟩), none, 0x49, 1⟩

/-- Event whose inner wait times out. -/
def evTimeout : WaitEvent := ⟨0, fun _ => .error .wouldBlock, .ok []⟩

/-- Event that wakes and probes the snapshot containing `exIfaceA`. -/
def evProbeA : WaitEvent := ⟨0, fun _ => .ok (), .ok [exIfaceA]⟩

/-- Event that wakes but whose re-probe fails with OS error 5. -/
def evProbeFails : WaitEvent := ⟨0, fun _ => .ok (), .error (.osError 5)⟩

/-- Windows adapter carrying a preferred IPv6 unicast address. -/
def exC2WinAdapter : WinAdapter :=
  ⟨"Wi-Fi", "guid-c2", [⟨some (.v6 ⟨0xfe80, 0, 0, 0, 0, 0, 0, 1⟩), 64, 4⟩], [], 0, 9, 1⟩

/-- POSIX IPv4 entry with the broadcast flag bit set and an IPv4 broadcast
address reported by the OS. -/
def exC2PosixEntry : PosixIfaddrsEntry :=
  ⟨"eth1", some (.v4 ⟨10, 0, 0, 2⟩), some (.v4 ⟨255, 0, 0, 0⟩),
   some (.v4 ⟨10, 255, 255, 255⟩), 2, 2⟩

/-! ## Helper lemmas -/

theorem popCountAux_zero (fuel : Nat) : popCountAux fuel 0 = 0 := by
  cases fuel <;> simp [popCountAux]

theorem popCountAux_congr :
    ∀ (n fuel fuel' : Nat), n ≤ fuel → n ≤ fuel' →
      popCountAux fuel n = popCountAux fuel' n := by
  intro n
  induction n using Nat.strong_induction_on with
  | _ n ih =>
    intro fuel fuel' hf hf'
    rcases Nat.eq_zero_or_pos n with hn | hn
    · subst hn; rw [popCountAux_zero, popCountAux_zero]
    · obtain ⟨f, rfl⟩ : ∃ f, fuel = f + 1 :=
        ⟨fuel - 1, by omega⟩
      obtain ⟨f', rfl⟩ : ∃ f', fuel' = f' + 1 :=
        ⟨fuel' - 1, by omega⟩
      have hne : n ≠ 0 := Nat.pos_iff_ne_zero.mp hn
      simp only [popCountAux, hne, if_false]
      have hdiv : n / 2 < n := Nat.div_lt_self hn (by omega)
      rw [ih (n / 2) hdiv f f' (by omega) (by omega)]

/-- Unfolding equation for `popCount`, valid for every argument. -/
theorem popCount_div2 (n : Nat) : popCount n = n % 2 + popCount (n / 2) := by
  rcases Nat.eq_zero_or_pos n with hn | hn
  · subst hn; rfl
  · obtain ⟨m, rfl⟩ : ∃ m, n = m + 1 := ⟨n - 1, by omega⟩
    show popCountAux (m + 1) (m + 1) = _
    have hne : m + 1 ≠ 0 := by omega
    simp only [popCountAux, hne, if_false]
    congr 1
    exact popCountAux_congr ((m + 1) / 2) m ((m + 1) / 2)
      (by omega) (Nat.le_refl _)

/-- Splitting a number at bit `k` splits its population count. -/
theorem popCount_add_pow :
    ∀ (k lo hi : Nat), lo < 2 ^ k →
      popCount (lo + 2 ^ k * hi) = popCount lo + popCount hi := by
  intro k
  induction k with
  | zero =>
    intro lo hi hlo
    interval_cases lo
    simp [popCount, popCountAux]
  | succ k ih =>
    intro lo hi hlo
    rw [popCount_div2 (lo + 2 ^ (k + 1) * hi), popCount_div2 lo]
    have h1 : (lo + 2 ^ (k + 1) * hi) % 2 = lo % 2 := by
      have : 2 ^ (k + 1) * hi = 2 * (2 ^ k * hi) := by ring
      rw [this, Nat.add_mul_mod_self_left]
    have h2 : (lo + 2 ^ (k + 1) * hi) / 2 = lo / 2 + 2 ^ k * hi := by
      have : 2 ^ (k + 1) * hi = 2 * (2 ^ k * hi) := by ring
      rw [this, Nat.add_mul_div_left _ _ (by omega)]
    rw [h1, h2, ih (lo / 2) hi (by omega)]
    omega

theorem lanesToNatBe_lt (w : Nat) :
    ∀ bs : List Nat, (∀ b ∈ bs, b < 2 ^ w) →
      lanesToNatBe w bs < 2 ^ (w * bs.length) := by
  intro bs
  induction bs with
  | nil => intro _; simp [lanesToNatBe]
  | cons b rest ih =>
    intro h
    have hb : b < 2 ^ w := h b (List.mem_cons_self _ _)
    have hrest := ih (fun x hx => h x (List.mem_cons_of_mem _ hx))
    simp only [lanesToNatBe, List.length_cons]
    have : w * (rest.length + 1) = w * rest.length + w := by ring
    rw [this, pow_add]
    calc b * 2 ^ (w * rest.length) + lanesToNatBe w rest
        < b * 2 ^ (w * rest.length) + 2 ^ (w * rest.length) := by omega
      _ = (b + 1) * 2 ^ (w * rest.length) := by ring
      _ ≤ 2 ^ w * 2 ^ (w * rest.length) := by
          exact Nat.mul_le_mul_right _ (by omega)
      _ = 2 ^ (w * rest.length) * 2 ^ w := by ring

theorem popCount_lanesToNatLe (w : Nat) :
    ∀ bs : List Nat, (∀ b ∈ bs, b < 2 ^ w) →
      popCount (lanesToNatLe w bs) = (bs.map popCount).sum := by
  intro bs
  induction bs with
  | nil => intro _; simp [lanesToNatLe, popCount, popCountAux]
  | cons b rest ih =>
    intro h
    have hb : b < 2 ^ w := h b (List.mem_cons_self _ _)
    have hrest := ih (fun x hx => h x (List.mem_cons_of_mem _ hx))
    simp only [lanesToNatLe, List.map_cons, List.sum_cons]
    rw [popCount_add_pow w b (lanesToNatLe w rest) hb, hrest]

theorem popCount_lanesToNatBe (w : Nat) :
    ∀ bs : List Nat, (∀ b ∈ bs, b < 2 ^ w) →
      popCount (lanesToNatBe w bs) = (bs.map popCount).sum := by
  intro bs
  induction bs with
  | nil => intro _; simp [lanesToNatBe, popCount, popCountAux]
  | cons b rest ih =>
    intro h
    have hb : b < 2 ^ w := h b (List.mem_cons_self _ _)
    have hrest := ih (fun x hx => h x (List.mem_cons_of_mem _ hx))
    simp only [lanesToNatBe, List.map_cons, List.sum_cons]
    have hlt : lanesToNatBe w rest < 2 ^ (w * rest.length) :=
      lanesToNatBe_lt w rest (fun x hx => h x (List.mem_cons_of_mem _ hx))
    rw [Nat.add_comm (b * 2 ^ (w * rest.length)) (lanesToNatBe w rest),
      Nat.mul_comm b (2 ^ (w * rest.length)),
      popCount_add_pow (w * rest.length) (lanesToNatBe w rest) b hlt, hrest]
    omega

/-- Population count does not depend on the byte order used to assemble the
lanes; this is why `count_ones(u32::from_le_bytes(..))` in the source equals
the popcount of the netmask in natural (big-endian) byte order. -/
theorem popCount_le_eq_be (w : Nat) (bs : List Nat)
    (h : ∀ b ∈ bs, b < 2 ^ w) :
    popCount (lanesToNatLe w bs) = popCount (lanesToNatBe w bs) := by
  rw [popCount_lanesToNatLe w bs h, popCount_lanesToNatBe w bs h]

theorem ipv4Valid_octets_lt {a : Ipv4Addr} (h : a.Valid) :
    ∀ b ∈ a.octets, b < 2 ^ 8 := by
  obtain ⟨h0, h1, h2, h3⟩ := h
  intro b hb
  simp only [Ipv4Addr.octets, List.mem_cons, List.not_mem_nil, or_false] at hb
  rcases hb with rfl | rfl | rfl | rfl <;> omega

theorem ipv6Valid_octets_lt {a : Ipv6Addr} (h : a.Valid) :
    ∀ b ∈ a.octets, b < 2 ^ 8 := by
  obtain ⟨h0, h1, h2, h3, h4, h5, h6, h7⟩ := h
  intro b hb
  simp only [Ipv6Addr.octets, List.mem_cons, List.not_mem_nil, or_false] at hb
  rcases hb with rfl | rfl | rfl | rfl | rfl | rfl | rfl | rfl |
    rfl | rfl | rfl | rfl | rfl | rfl | rfl | rfl <;> omega

/-! ## Claim theorems -/

/-- C3 (amended): `Ifv6Addr::is_link_local` returns `true` exactly when the
first two octets of the address are `0xfe` and `0x80`; `Interface`-level
classification agrees on V6 addresses; `fe80::1` is link-local and
`2001:db8::1` is not. -/
theorem c3_link_local_first_two_octets :
    (∀ a : Ifv6Addr, a.isLinkLocal = true ↔
      (a.ip.octets.getD 0 0 = 0xfe ∧ a.ip.octets.getD 1 0 = 0x80)) ∧
    (∀ (i : Interface) (a : Ifv6Addr), i.addr = .v6 a →
      i.isLinkLocal = a.isLinkLocal) ∧
    Ifv6Addr.isLinkLocal
      ⟨⟨0xfe80, 0, 0, 0, 0, 0, 0, 1⟩, ⟨0, 0, 0, 0, 0, 0, 0, 0⟩, 64, none⟩ = true ∧
    Ifv6Addr.isLinkLocal
      ⟨⟨0x2001, 0xdb8, 0, 0, 0, 0, 0, 1⟩, ⟨0, 0, 0, 0, 0, 0, 0, 0⟩, 64, none⟩ = false := by
  refine ⟨?_, ?_, by decide, by decide⟩
  · intro a
    simp [Ifv6Addr.isLinkLocal]
  · intro i a h
    simp [Interface.isLinkLocal, h, IfAddr.isLinkLocal]

/-- C3 witness: the general clauses applied to a concrete `fe80::1`
interface. -/
theorem c3_link_local_witness :
    Interface.isLinkLocal
        ⟨"w", .v6 ⟨⟨0xfe80, 0, 0, 0, 0, 0, 0, 1⟩, ⟨0, 0, 0, 0, 0, 0, 0, 0⟩, 64, none⟩,
         none, .up⟩ =
      Ifv6Addr.isLinkLocal
        ⟨⟨0xfe80, 0, 0, 0, 0, 0, 0, 1⟩, ⟨0, 0, 0, 0, 0, 0, 0, 0⟩, 64, none⟩ ∧
    (Ifv6Addr.isLinkLocal
        ⟨⟨0xfe80, 0, 0, 0, 0, 0, 0, 1⟩, ⟨0, 0, 0, 0, 0, 0, 0, 0⟩, 64, none⟩ = true ↔
      ((Ipv6Addr.octets ⟨0xfe80, 0, 0, 0, 0, 0, 0, 1⟩).getD 0 0 = 0xfe ∧
        (Ipv6Addr.octets ⟨0xfe80, 0, 0, 0, 0, 0, 0, 1⟩).getD 1 0 = 0x80)) :=
  ⟨c3_link_local_first_two_octets.2.1 _ _ rfl,
   c3_link_local_first_two_octets.1 _⟩

/-- C3 counterexample: `fe81::1` is a valid address whose top 10 bits are
`1111111010` (the value `0x3fa`), yet `is_link_local` returns `false`;
"exactly when the top 10 bits equal 1111111010" fails on it. -/
theorem c3_link_local_counterexample :
    Ipv6Addr.Valid ⟨0xfe81, 0, 0, 0, 0, 0, 0, 1⟩ ∧
    Ipv6Addr.topTenBits ⟨0xfe81, 0, 0, 0, 0, 0, 0, 1⟩ = 0x3fa ∧
    Ifv6Addr.isLinkLocal
      ⟨⟨0xfe81, 0, 0, 0, 0, 0, 0, 1⟩, ⟨0, 0, 0, 0, 0, 0, 0, 0⟩, 64, none⟩ = false :=
  ⟨by decide, by decide, by decide⟩

/-- C8: a requested timeout whose whole-second and sub-second-microsecond
parts are both zero is handed to the OS as the minimal non-zero receive
timeout of one microsecond, while a `None` timeout becomes the all-zero
`timeval`, under which the modelled receive waits forever. -/
theorem c8_zero_timeout_bumped (d : Duration) :
    (d.asSecs = 0 ∧ d.subsecMicros = 0 → timevalOfTimeout (some d) = ⟨0, 1⟩) ∧
    timevalOfTimeout none = ⟨0, 0⟩ ∧
    recvWithRcvtimeo (timevalOfTimeout none) false = .blocksForever := by
  refine ⟨?_, rfl, rfl⟩
  rintro ⟨h1, h2⟩
  simp [timevalOfTimeout, h1, h2]

/-- C8 witness: a 999-nanosecond timeout rounds to zero and is bumped. -/
theorem c8_zero_timeout_witness :
    Duration.asSecs ⟨999⟩ = 0 ∧ Duration.subsecMicros ⟨999⟩ = 0 ∧
    timevalOfTimeout (some ⟨999⟩) = ⟨0, 1⟩ :=
  ⟨by decide, by decide, (c8_zero_timeout_bumped ⟨999⟩).1 ⟨by decide, by decide⟩⟩

/-- C10: in the POSIX enumeration, an entry whose OS-reported netmask is
absent or decodes to the other family than the entry's own address yields
an all-zero netmask and `prefixlen = 0`. -/
theorem c10_absent_netmask_zero (e : PosixIfaddrsEntry) :
    (∀ a : Ifv4Addr, posixIfAddrOf e = some (.v4 a) →
      (∀ nm, e.netmask ≠ some (.v4 nm)) →
      a.netmask = ⟨0, 0, 0, 0⟩ ∧ a.prefixlen = 0) ∧
    (∀ a : Ifv6Addr, posixIfAddrOf e = some (.v6 a) →
      (∀ nm, e.netmask ≠ some (.v6 nm)) →
      a.netmask = ⟨0, 0, 0, 0, 0, 0, 0, 0⟩ ∧ a.prefixlen = 0) := by
  constructor
  · intro a h hnm
    cases ha : e.addr with
    | none => simp [posixIfAddrOf, ha] at h
    | some ip =>
      cases ip with
      | v6 ipv6 => simp [posixIfAddrOf, ha] at h
      | v4 ipv4 =>
        cases hn : e.netmask with
        | none =>
          simp [posixIfAddrOf, ha, hn] at h
          rw [← h]
          exact ⟨rfl, show popCount (lanesToNatLe 8 (Ipv4Addr.octets ⟨0, 0, 0, 0⟩)) = 0 by decide⟩
        | some ip =>
          cases ip with
          | v4 nm => exact absurd hn (hnm nm)
          | v6 nm =>
            simp [posixIfAddrOf, ha, hn] at h
            rw [← h]
            exact ⟨rfl, show popCount (lanesToNatLe 8 (Ipv4Addr.octets ⟨0, 0, 0, 0⟩)) = 0 by decide⟩
  · intro a h hnm
    cases ha : e.addr with
    | none => simp [posixIfAddrOf, ha] at h
    | some ip =>
      cases ip with
      | v4 ipv4 => simp [posixIfAddrOf, ha] at h
      | v6 ipv6 =>
        cases hn : e.netmask with
        | none =>
          simp [posixIfAddrOf, ha, hn] at h
          rw [← h]
          exact ⟨rfl,
            show popCount (lanesToNatLe 8 (Ipv6Addr.octets ⟨0, 0, 0, 0, 0, 0, 0, 0⟩)) = 0 by decide⟩
        | some ip =>
          cases ip with
          | v6 nm => exact absurd hn (hnm nm)
          | v4 nm =>
            simp [posixIfAddrOf, ha, hn] at h
            rw [← h]
            exact ⟨rfl,
              show popCount (lanesToNatLe 8 (Ipv6Addr.octets ⟨0, 0, 0, 0, 0, 0, 0, 0⟩)) = 0 by decide⟩

/-- C10 witness: an IPv4 entry whose netmask decodes as IPv6 produces the
all-zero netmask and a zero prefix length. -/
theorem c10_absent_netmask_witness :
    Ifv4Addr.netmask ⟨⟨10, 0, 0, 1⟩, ⟨0, 0, 0, 0⟩, 0, none⟩ = ⟨0, 0, 0, 0⟩ ∧
    Ifv4Addr.prefixlen ⟨⟨10, 0, 0, 1⟩, ⟨0, 0, 0, 0⟩, 0, none⟩ = 0 :=
  (c10_absent_netmask_zero exC10Entry).1 ⟨⟨10, 0, 0, 1⟩, ⟨0, 0, 0, 0⟩, 0, none⟩
    (by decide) (fun nm h => by simp [exC10Entry] at h)

/-- C5: with a zero timeout and no pending OS signal, both platform wait
primitives return promptly (they do not block forever) with a `WouldBlock`
error; the engine's wait loop propagates an inner-wait error unchanged on
its first iteration; and `WouldBlock` is distinct from every other error
kind. -/
theorem c5_zero_timeout_would_block :
    posixNotifierWait (some ⟨0⟩) false = .returns (.error .wouldBlock) ∧
    windowsNotifierWait (some ⟨0⟩) false = .returns (.error .wouldBlock) ∧
    (∀ (timeout : Option Nat) (lastIfs : List Interface) (ev : WaitEvent)
       (rest : List WaitEvent) (e : IOErrorKind),
       ev.osWait (timeout.map fun t => t - ev.elapsed) = .error e →
       engineWait timeout lastIfs (ev :: rest) = .err e lastIfs) ∧
    (∀ code, IOErrorKind.wouldBlock ≠ .osError code) := by
  refine ⟨rfl, rfl, ?_, fun code h => by cases h⟩
  intro timeout lastIfs ev rest e h
  simp only [engineWait]
  rw [h]

/-- C5 witness: a one-event trace whose inner wait times out makes the
engine return the `WouldBlock` error with the snapshot untouched. -/
theorem c5_zero_timeout_witness :
    engineWait (some 0) [] [evTimeout] = .err .wouldBlock [] :=
  c5_zero_timeout_would_block.2.2.1 (some 0) [] evTimeout [] .wouldBlock rfl

/-- C1 (amended): every interface produced by the POSIX enumeration from
in-range entries has `prefixlen` equal to the population count of its
netmask in the address's natural byte order.  (The Windows backend does not
maintain this; see the counterexample.) -/
theorem c1_posix_prefixlen_eq_popcount (entries : List PosixIfaddrsEntry)
    (iface : Interface) (hv : ∀ e ∈ entries, e.Valid)
    (hm : iface ∈ posixGetIfAddrs entries) :
    iface.addr.prefixlenOf = iface.addr.netmaskPopCountBe := by
  rcases List.mem_filterMap.mp hm with ⟨e, he, hsome⟩
  have hval := hv e he
  unfold posixInterfaceOf at hsome
  cases haddr : posixIfAddrOf e with
  | none => rw [haddr] at hsome; simp at hsome
  | some ad =>
    rw [haddr] at hsome
    simp only [Option.map_some'] at hsome
    have hia : iface.addr = ad := by
      injection hsome with hsome
      rw [← hsome]
    rw [hia]
    cases ha : e.addr with
    | none => simp [posixIfAddrOf, ha] at haddr
    | some ip =>
      cases ip with
      | v4 ipv4 =>
        simp only [posixIfAddrOf, ha] at haddr
        injection haddr with haddr
        subst haddr
        simp only [IfAddr.prefixlenOf, IfAddr.netmaskPopCountBe]
        apply popCount_le_eq_be
        cases hn : e.netmask with
        | none =>
          simp only [hn]
          exact ipv4Valid_octets_lt (show Ipv4Addr.Valid ⟨0, 0, 0, 0⟩ by decide)
        | some ip =>
          cases ip with
          | v4 nm =>
            simp only [hn]
            have : nm.Valid := by
              have h2 := hval.2.1
              rw [hn] at h2
              exact h2
            exact ipv4Valid_octets_lt this
          | v6 nm =>
            simp only [hn]
            exact ipv4Valid_octets_lt (show Ipv4Addr.Valid ⟨0, 0, 0, 0⟩ by decide)
      | v6 ipv6 =>
        simp only [posixIfAddrOf, ha] at haddr
        injection haddr with haddr
        subst haddr
        simp only [IfAddr.prefixlenOf, IfAddr.netmaskPopCountBe]
        apply popCount_le_eq_be
        cases hn : e.netmask with
        | none =>
          simp only [hn]
          exact ipv6Valid_octets_lt (show Ipv6Addr.Valid ⟨0, 0, 0, 0, 0, 0, 0, 0⟩ by decide)
        | some ip =>
          cases ip with
          | v6 nm =>
            simp only [hn]
            have : nm.Valid := by
              have h2 := hval.2.1
              rw [hn] at h2
              exact h2
            exact ipv6Valid_octets_lt this
          | v4 nm =>
            simp only [hn]
            exact ipv6Valid_octets_lt (show Ipv6Addr.Valid ⟨0, 0, 0, 0, 0, 0, 0, 0⟩ by decide)

/-- C1 witness: a loopback entry (netmask `255.0.0.0`) enumerates to an
interface with `prefixlen = 8 = popcount(netmask)`. -/
theorem c1_posix_prefixlen_witness :
    IfAddr.prefixlenOf
        (Interface.addr ⟨"lo", .v4 ⟨⟨127, 0, 0, 1⟩, ⟨255, 0, 0, 0⟩, 8, none⟩, some 1, .up⟩) =
      IfAddr.netmaskPopCountBe
        (Interface.addr ⟨"lo", .v4 ⟨⟨127, 0, 0, 1⟩, ⟨255, 0, 0, 0⟩, 8, none⟩, some 1, .up⟩) :=
  c1_posix_prefixlen_eq_popcount [exC1Entry]
    ⟨"lo", .v4 ⟨⟨127, 0, 0, 1⟩, ⟨255, 0, 0, 0⟩, 8, none⟩, some 1, .up⟩
    (by decide) (by decide)

/-- C1 counterexample: on the Windows backend a preferred `/24` unicast
address on an adapter with an empty prefix table produces `prefixlen = 24`
with an all-zero netmask, so `prefixlen = popcount(netmask)` fails there. -/
theorem c1_windows_counterexample :
    (winGetIfAddrs [cexC1Adapter]).map (fun i => i.addr) =
      [.v4 ⟨⟨192, 168, 1, 42⟩, ⟨0, 0, 0, 0⟩, 24, none⟩] ∧
    IfAddr.prefixlenOf (.v4 ⟨⟨192, 168, 1, 42⟩, ⟨0, 0, 0, 0⟩, 24, none⟩) ≠
      IfAddr.netmaskPopCountBe (.v4 ⟨⟨192, 168, 1, 42⟩, ⟨0, 0, 0, 0⟩, 24, none⟩) :=
  ⟨by decide, by decide⟩

/-- Windows V6 entries are built with `broadcast := None` on every path. -/
theorem winIfAddrOf_v6_broadcast_none (prefixes : List WinPrefixEntry)
    (u : WinUnicastAddress) (a : Ifv6Addr)
    (h : winIfAddrOf prefixes u = some (.v6 a)) : a.broadcast = none := by
  by_cases hd : u.dadState ≠ IpDadStatePreferred
  · simp [winIfAddrOf, hd] at h
  · cases hu : u.address with
    | none => simp [winIfAddrOf, hd, hu] at h
    | some ip =>
      cases ip with
      | v4 ipv4 => simp [winIfAddrOf, hd, hu] at h
      | v6 ipv6 =>
        simp only [winIfAddrOf, hd, hu, if_false] at h
        injection h with h
        injection h with h
        rw [← h]

/-- C2 (amended): on the Windows backend IPv6 entries never carry a
broadcast; on the POSIX backend a produced entry's broadcast (of either
family, including IPv6) equals a value `b` exactly when the entry's flags
have the broadcast capability bit (`0x2`) set and the OS-reported
broadcast address decodes to `b` in the entry's own family. -/
theorem c2_broadcast_flag_gated :
    (∀ (adapters : List WinAdapter) (i : WinInterface) (a : Ifv6Addr),
      i ∈ winGetIfAddrs adapters → i.addr = .v6 a → a.broadcast = none) ∧
    (∀ (e : PosixIfaddrsEntry) (a : Ifv4Addr) (b : Ipv4Addr),
      posixIfAddrOf e = some (.v4 a) →
      (a.broadcast = some b ↔ (e.flags &&& 2 ≠ 0 ∧ e.broadcastAddr = some (.v4 b)))) ∧
    (∀ (e : PosixIfaddrsEntry) (a : Ifv6Addr) (b : Ipv6Addr),
      posixIfAddrOf e = some (.v6 a) →
      (a.broadcast = some b ↔ (e.flags &&& 2 ≠ 0 ∧ e.broadcastAddr = some (.v6 b)))) := by
  refine ⟨?_, ?_, ?_⟩
  · intro adapters i a hm hv6
    simp only [winGetIfAddrs, List.mem_flatten, List.mem_map] at hm
    rcases hm with ⟨l, ⟨ad, had, rfl⟩, hil⟩
    rcases List.mem_filterMap.mp hil with ⟨u, hu, hmk⟩
    cases hw : winIfAddrOf ad.prefixes u with
    | none => rw [hw] at hmk; simp at hmk
    | some addr0 =>
      rw [hw] at hmk
      simp only [Option.map_some'] at hmk
      injection hmk with hmk
      have : addr0 = .v6 a := by rw [← hv6, ← hmk]
      exact winIfAddrOf_v6_broadcast_none ad.prefixes u a (this ▸ hw)
  · intro e a b h
    cases ha : e.addr with
    | none => simp [posixIfAddrOf, ha] at h
    | some ip =>
      cases ip with
      | v6 ipv6 => simp [posixIfAddrOf, ha] at h
      | v4 ipv4 =>
        simp only [posixIfAddrOf, ha] at h
        injection h with h
        injection h with h
        rw [← h]
        by_cases hf : e.flags &&& 2 ≠ 0
        · cases hbc : e.broadcastAddr with
          | none => simp [hf, hbc]
          | some ip =>
            cases ip with
            | v4 c => simp [hf, hbc]
            | v6 c => simp [hf, hbc]
        · simp [hf]
  · intro e a b h
    cases ha : e.addr with
    | none => simp [posixIfAddrOf, ha] at h
    | some ip =>
      cases ip with
      | v4 ipv4 => simp [posixIfAddrOf, ha] at h
      | v6 ipv6 =>
        simp only [posixIfAddrOf, ha] at h
        injection h with h
        injection h with h
        rw [← h]
        by_cases hf : e.flags &&& 2 ≠ 0
        · cases hbc : e.broadcastAddr with
          | none => simp [hf, hbc]
          | some ip =>
            cases ip with
            | v6 c => simp [hf, hbc]
            | v4 c => simp [hf, hbc]
        · simp [hf]

/-- C2 witness: the three clauses at concrete inputs — a Windows IPv6
entry (broadcast absent), and both directions of the POSIX gate via `mpr`
on a flagged IPv4 entry and on the flagged IPv6 entry. -/
theorem c2_broadcast_witness :
    Ifv6Addr.broadcast
        ⟨⟨0xfe80, 0, 0, 0, 0, 0, 0, 1⟩, ⟨0, 0, 0, 0, 0, 0, 0, 0⟩, 64, none⟩ = none ∧
    Ifv4Addr.broadcast ⟨⟨10, 0, 0, 2⟩, ⟨255, 0, 0, 0⟩, 8, some ⟨10, 255, 255, 255⟩⟩ =
      some ⟨10, 255, 255, 255⟩ ∧
    Ifv6Addr.broadcast
        ⟨⟨0xfe80, 0, 0, 0, 0, 0, 0, 2⟩, ⟨0, 0, 0, 0, 0, 0, 0, 0⟩, 0,
         some ⟨0xfe80, 0, 0, 0, 0, 0, 0, 0xffff⟩⟩ =
      some ⟨0xfe80, 0, 0, 0, 0, 0, 0, 0xffff⟩ :=
  ⟨c2_broadcast_flag_gated.1 [exC2WinAdapter]
      ⟨"Wi-Fi", .v6 ⟨⟨0xfe80, 0, 0, 0, 0, 0, 0, 1⟩, ⟨0, 0, 0, 0, 0, 0, 0, 0⟩, 64, none⟩,
       some 9, .up, "guid-c2"⟩ _ (by decide) rfl,
   (c2_broadcast_flag_gated.2.1 exC2PosixEntry
      ⟨⟨10, 0, 0, 2⟩, ⟨255, 0, 0, 0⟩, 8, some ⟨10, 255, 255, 255⟩⟩
      ⟨10, 255, 255, 255⟩ (by decide)).mpr ⟨by decide, rfl⟩,
   (c2_broadcast_flag_gated.2.2 cexC2Entry
      ⟨⟨0xfe80, 0, 0, 0, 0, 0, 0, 2⟩, ⟨0, 0, 0, 0, 0, 0, 0, 0⟩, 0,
       some ⟨0xfe80, 0, 0, 0, 0, 0, 0, 0xffff⟩⟩
      ⟨0xfe80, 0, 0, 0, 0, 0, 0, 0xffff⟩ (by decide)).mpr ⟨by decide, rfl⟩⟩

/-- C2 counterexample: the POSIX enumeration of a flagged IPv6 entry whose
OS-reported broadcast decodes as IPv6 produces an `Ifv6Addr` whose
broadcast is `Some`, refuting "IPv6 entries never carry a broadcast". -/
theorem c2_posix_v6_broadcast_counterexample :
    posixGetIfAddrs [cexC2Entry] =
      [⟨"tun0", .v6 ⟨⟨0xfe80, 0, 0, 0, 0, 0, 0, 2⟩, ⟨0, 0, 0, 0, 0, 0, 0, 0⟩, 0,
          some ⟨0xfe80, 0, 0, 0, 0, 0, 0, 0xffff⟩⟩, some 3, .unknown⟩] ∧
    IfAddr.hasBroadcast (.v6 ⟨⟨0xfe80, 0, 0, 0, 0, 0, 0, 2⟩, ⟨0, 0, 0, 0, 0, 0, 0, 0⟩, 0,
        some ⟨0xfe80, 0, 0, 0, 0, 0, 0, 0xffff⟩⟩) = true :=
  ⟨by decide, by decide⟩

/-- In a list of `added`-tagged entries followed by `removed`-tagged
entries, every `added` index precedes every `removed` index. -/
theorem addedList_before_removedList (l1 l2 : List Interface) (i j : Nat)
    (hi : i < (l1.map IfChangeType.added ++ l2.map IfChangeType.removed).length)
    (hj : j < (l1.map IfChangeType.added ++ l2.map IfChangeType.removed).length)
    (x y : Interface)
    (hx : (l1.map IfChangeType.added ++ l2.map IfChangeType.removed).get ⟨i, hi⟩ =
      .added x)
    (hy : (l1.map IfChangeType.added ++ l2.map IfChangeType.removed).get ⟨j, hj⟩ =
      .removed y) :
    i < j := by
  rw [List.get_eq_getElem] at hx hy
  by_cases hiL : i < (l1.map IfChangeType.added).length
  · by_cases hjL : j < (l1.map IfChangeType.added).length
    · rw [List.getElem_append_left hjL] at hy
      have hmem : (l1.map IfChangeType.added)[j] ∈ l1.map IfChangeType.added :=
        List.getElem_mem _
      rw [hy] at hmem
      rcases List.mem_map.mp hmem with ⟨b, _, hba⟩
      exact IfChangeType.noConfusion hba
    · omega
  · push_neg at hiL
    rw [List.getElem_append_right hiL] at hx
    have hbound : i - (l1.map IfChangeType.added).length <
        (l2.map IfChangeType.removed).length := by
      simp only [List.length_append, List.length_map] at hi hiL ⊢
      omega
    have hmem : (l2.map IfChangeType.removed).get
        ⟨i - (l1.map IfChangeType.added).length, hbound⟩ ∈
        l2.map IfChangeType.removed := List.get_mem _ _ hbound
    rw [List.get_eq_getElem] at hmem
    rw [hx] at hmem
    rcases List.mem_map.mp hmem with ⟨b, _, hba⟩
    exact IfChangeType.noConfusion hba

/-- C4: the wait-loop diff contains exactly the elements of
`cur \ prev` tagged `added` and of `prev \ cur` tagged `removed` (by full
value equality, each at most once for duplicate-free snapshots), every
`added` entry is ordered before every `removed` entry, and the diff of a
snapshot against itself is empty. -/
theorem c4_snapshot_diff_exact (prev cur : List Interface) :
    (∀ x, IfChangeType.added x ∈ snapshotDiff prev cur ↔ (x ∈ cur ∧ x ∉ prev)) ∧
    (∀ x, IfChangeType.removed x ∈ snapshotDiff prev cur ↔ (x ∈ prev ∧ x ∉ cur)) ∧
    (prev.Nodup → cur.Nodup → (snapshotDiff prev cur).Nodup) ∧
    (∀ (i j : Nat) (hi : i < (snapshotDiff prev cur).length)
       (hj : j < (snapshotDiff prev cur).length) (x y : Interface),
       (snapshotDiff prev cur).get ⟨i, hi⟩ = .added x →
       (snapshotDiff prev cur).get ⟨j, hj⟩ = .removed y → i < j) ∧
    snapshotDiff prev prev = [] := by
  refine ⟨?_, ?_, ?_, ?_, ?_⟩
  · intro x
    simp [snapshotDiff, hashSetDiff, List.mem_filter]
  · intro x
    simp [snapshotDiff, hashSetDiff, List.mem_filter]
  · intro hp hc
    apply List.Nodup.append
    · exact (hc.filter _).map (fun a b h => by injection h)
    · exact (hp.filter _).map (fun a b h => by injection h)
    · intro z hz1 hz2
      rcases List.mem_map.mp hz1 with ⟨a, _, rfl⟩
      rcases List.mem_map.mp hz2 with ⟨b, _, hba⟩
      exact IfChangeType.noConfusion hba
  · intro i j hi hj x y hx hy
    exact addedList_before_removedList (hashSetDiff cur prev) (hashSetDiff prev cur)
      i j hi hj x y hx hy
  · have hfe : ∀ l : List Interface, hashSetDiff l l = [] := by
      intro l
      simp [hashSetDiff, List.filter_eq_nil_iff]
    simp [snapshotDiff, hfe]

/-- C4 witness: for snapshots `[exIfaceA]` and `[exIfaceB]` the diff is
`[added exIfaceB, removed exIfaceA]`, satisfying all clauses at concrete
indices. -/
theorem c4_snapshot_diff_witness :
    (IfChangeType.added exIfaceB ∈ snapshotDiff [exIfaceA] [exIfaceB]) ∧
    (IfChangeType.removed exIfaceA ∈ snapshotDiff [exIfaceA] [exIfaceB]) ∧
    (snapshotDiff [exIfaceA] [exIfaceB]).Nodup ∧
    (0 : Nat) < 1 ∧
    snapshotDiff [exIfaceA] [exIfaceA] = [] := by
  have h := c4_snapshot_diff_exact [exIfaceA] [exIfaceB]
  refine ⟨(h.1 exIfaceB).mpr (by decide), (h.2.1 exIfaceA).mpr (by decide),
    h.2.2.1 (by decide) (by decide), ?_, (c4_snapshot_diff_exact [exIfaceA] [exIfaceA]).2.2.2.2⟩
  exact h.2.2.2.1 0 1 (by decide) (by decide) exIfaceB exIfaceA (by decide) (by decide)

/-- C6: the first prefix-table row decoding to the candidate's family whose
address bits agree with the candidate up to its prefix length determines
the netmask and the synthesized broadcast `ip | !netmask`; on the spec's
scenario (table row `192.168.1.0/24`, candidate `192.168.1.42` with on-link
prefix length 24) the produced entry has netmask `255.255.255.0`,
`prefixlen = 24` and broadcast `192.168.1.255`. -/
theorem c6_first_match_determines_netmask :
    (∀ (ipv4 : Ipv4Addr) (front : List WinPrefixEntry) (p : WinPrefixEntry)
       (rest : List WinPrefixEntry) (a : Ipv4Addr) (ms : List Nat),
       (∀ q ∈ front, ∀ b, q.address = some (.v4 b) →
         winMaskLanes 8 q.prefixLength 0 ipv4.octets b.octets = none) →
       p.address = some (.v4 a) →
       winMaskLanes 8 p.prefixLength 0 ipv4.octets a.octets = some ms →
       winScanPrefixesV4 ipv4 (front ++ p :: rest) =
         (⟨ms.getD 0 0, ms.getD 1 0, ms.getD 2 0, ms.getD 3 0⟩,
          some ⟨ipv4.o0 ||| (255 ^^^ ms.getD 0 0), ipv4.o1 ||| (255 ^^^ ms.getD 1 0),
                ipv4.o2 ||| (255 ^^^ ms.getD 2 0), ipv4.o3 ||| (255 ^^^ ms.getD 3 0)⟩)) ∧
    winGetIfAddrs [c6Adapter] =
      [⟨"Ethernet", .v4 ⟨⟨192, 168, 1, 42⟩, ⟨255, 255, 255, 0⟩, 24, some ⟨192, 168, 1, 255⟩⟩,
        some 7, .up, "guid-c6"⟩] := by
  constructor
  · intro ipv4 front
    induction front with
    | nil =>
      intro p rest a ms _ hp hms
      simp [winScanPrefixesV4, hp, hms]
    | cons q front ih =>
      intro p rest a ms hfront hp hms
      have hrest : ∀ q' ∈ front, ∀ b, q'.address = some (.v4 b) →
          winMaskLanes 8 q'.prefixLength 0 ipv4.octets b.octets = none :=
        fun q' hq' => hfront q' (List.mem_cons_of_mem _ hq')
      cases hqa : q.address with
      | none =>
        simp only [List.cons_append, winScanPrefixesV4, hqa]
        exact ih p rest a ms hrest hp hms
      | some ip =>
        cases ip with
        | v6 b =>
          simp only [List.cons_append, winScanPrefixesV4, hqa]
          exact ih p rest a ms hrest hp hms
        | v4 b =>
          have hnone := hfront q (List.mem_cons_self _ _) b hqa
          simp only [List.cons_append, winScanPrefixesV4, hqa, hnone]
          exact ih p rest a ms hrest hp hms
  · decide

/-- C6 witness: the first-match clause applied to the scenario's singleton
prefix table reconstructs netmask `255.255.255.0` and broadcast
`192.168.1.255`. -/
theorem c6_first_match_witness :
    winScanPrefixesV4 ⟨192, 168, 1, 42⟩ [⟨some (.v4 ⟨192, 168, 1, 0⟩), 24⟩] =
      (⟨255, 255, 255, 0⟩, some ⟨192, 168, 1, 255⟩) := by
  have h := c6_first_match_determines_netmask.1 ⟨192, 168, 1, 42⟩ []
    ⟨some (.v4 ⟨192, 168, 1, 0⟩), 24⟩ [] ⟨192, 168, 1, 0⟩ [255, 255, 255, 0]
    (fun q hq => absurd hq (List.not_mem_nil q)) rfl (by decide)
  exact h

/-- C7: every `Ok` return of the wait loop carries a non-empty change list
and leaves the stored snapshot equal to the probed snapshot the changes
were diffed against (which is the result of some probe in the trace); and
a spurious wake (empty diff) replaces the snapshot with the new probe
result and loops on the remaining events. -/
theorem c7_ok_nonempty_updates_snapshot :
    (∀ (timeout : Option Nat) (lastIfs : List Interface) (events : List WaitEvent)
       (changes : List IfChangeType) (final : List Interface),
       engineWait timeout lastIfs events = .ok changes final →
       changes ≠ [] ∧ (∃ prev, changes = snapshotDiff prev final) ∧
         ∃ ev ∈ events, ev.probe = .ok final) ∧
    (∀ (timeout : Option Nat) (lastIfs : List Interface) (ev : WaitEvent)
       (rest : List WaitEvent) (newIfs : List Interface),
       ev.osWait (timeout.map fun t => t - ev.elapsed) = .ok () →
       ev.probe = .ok newIfs → snapshotDiff lastIfs newIfs = [] →
       engineWait timeout lastIfs (ev :: rest) = engineWait timeout newIfs rest) := by
  constructor
  · intro timeout lastIfs events
    induction events generalizing lastIfs with
    | nil =>
      intro changes final h
      simp [engineWait] at h
    | cons ev rest ih =>
      intro changes final h
      simp only [engineWait] at h
      cases hos : ev.osWait (timeout.map fun t => t - ev.elapsed) with
      | error e => rw [hos] at h; simp at h
      | ok u =>
        rw [hos] at h
        cases hp : ev.probe with
        | error e => rw [hp] at h; simp at h
        | ok newIfs =>
          rw [hp] at h
          by_cases hemp : (snapshotDiff lastIfs newIfs).isEmpty
          · simp only [hemp, if_true] at h
            obtain ⟨hne, hprev, ev', hev', hprobe⟩ := ih newIfs changes final h
            exact ⟨hne, hprev, ev', List.mem_cons_of_mem _ hev', hprobe⟩
          · simp only [hemp, if_false] at h
            injection h with h1 h2
            subst h2
            refine ⟨?_, ⟨lastIfs, h1.symm⟩, ev, List.mem_cons_self _ _, hp⟩
            rw [← h1]
            intro hnil
            rw [hnil] at hemp
            exact hemp rfl
  · intro timeout lastIfs ev rest newIfs h1 h2 h3
    simp [engineWait, h1, h2, h3]

/-- C7 witness: the first clause instantiated on a one-event trace probing
`[exIfaceA]` from an empty snapshot, and the spurious clause on a wake
whose probe returns the unchanged snapshot. -/
theorem c7_ok_witness :
    (snapshotDiff [] [exIfaceA] ≠ [] ∧
      (∃ prev, snapshotDiff [] [exIfaceA] = snapshotDiff prev [exIfaceA]) ∧
      ∃ ev ∈ [evProbeA], ev.probe = .ok [exIfaceA]) ∧
    engineWait none [exIfaceA] [evProbeA] = engineWait none [exIfaceA] [] := by
  constructor
  · exact c7_ok_nonempty_updates_snapshot.1 none [] [evProbeA]
      (snapshotDiff [] [exIfaceA]) [exIfaceA] (by decide)
  · exact c7_ok_nonempty_updates_snapshot.2 none [exIfaceA] evProbeA [] [exIfaceA]
      rfl rfl (by decide)

/-- C9: when the wait loop returns an error (from the inner wait or from
the re-probe), the stored snapshot is exactly its value immediately before
the failing call: the run splits into a spurious prefix that leaves the
snapshot at `final` (itself either the initial snapshot or the result of a
successful probe) and a failing event that does not change it. -/
theorem c9_error_keeps_snapshot (timeout : Option Nat) (lastIfs : List Interface)
    (events : List WaitEvent) (e : IOErrorKind) (final : List Interface)
    (h : engineWait timeout lastIfs events = .err e final) :
    (final = lastIfs ∨ ∃ ev ∈ events, ev.probe = .ok final) ∧
    ∃ pre ev post, events = pre ++ ev :: post ∧
      engineWait timeout lastIfs pre = .blocked final ∧
      (ev.osWait (timeout.map fun t => t - ev.elapsed) = .error e ∨
        (ev.osWait (timeout.map fun t => t - ev.elapsed) = .ok () ∧
          ev.probe = .error e)) := by
  induction events generalizing lastIfs with
  | nil => simp [engineWait] at h
  | cons ev rest ih =>
    simp only [engineWait] at h
    cases hos : ev.osWait (timeout.map fun t => t - ev.elapsed) with
    | error e0 =>
      rw [hos] at h
      injection h with h1 h2
      subst h1
      subst h2
      exact ⟨Or.inl rfl, [], ev, rest, rfl, rfl, Or.inl hos⟩
    | ok u =>
      rw [hos] at h
      cases u
      cases hp : ev.probe with
      | error e0 =>
        rw [hp] at h
        injection h with h1 h2
        subst h1
        subst h2
        exact ⟨Or.inl rfl, [], ev, rest, rfl, rfl, Or.inr ⟨hos, hp⟩⟩
      | ok newIfs =>
        rw [hp] at h
        by_cases hemp : (snapshotDiff lastIfs newIfs).isEmpty
        · simp only [hemp, if_true] at h
          obtain ⟨hfin, pre, ev', post, hsplit, hblocked, hfail⟩ := ih newIfs h
          refine ⟨?_, ev :: pre, ev', post, by rw [hsplit]; rfl, ?_, hfail⟩
          · rcases hfin with rfl | ⟨ev2, hev2, hp2⟩
            · exact Or.inr ⟨ev, List.mem_cons_self _ _, hp⟩
            · exact Or.inr ⟨ev2, List.mem_cons_of_mem _ hev2, hp2⟩
          · simp only [engineWait, hos, hp, hemp, if_true]
            exact hblocked
        · simp only [hemp, if_false] at h
          simp at h

/-- C9 witness: a trace whose single event wakes but fails the re-probe
leaves the snapshot `[exIfaceA]` unchanged and surfaces the probe error. -/
theorem c9_error_witness :
    ([exIfaceA] = [exIfaceA] ∨ ∃ ev ∈ [evProbeFails], ev.probe = .ok [exIfaceA]) ∧
    ∃ pre ev post, [evProbeFails] = pre ++ ev :: post ∧
      engineWait none [exIfaceA] pre = .blocked [exIfaceA] ∧
      (ev.osWait ((none : Option Nat).map fun t => t - ev.elapsed) =
          .error (.osError 5) ∨
        (ev.osWait ((none : Option Nat).map fun t => t - ev.elapsed) = .ok () ∧
          ev.probe = .error (.osError 5))) :=
  c9_error_keeps_snapshot none [exIfaceA] [evProbeFails] (.osError 5) [exIfaceA]
    (by decide)
